import Mathlib

/-!
Shallow embedding of the Simple-TTR-Launcher patcher core
(`src/patcher.py` and `src/helper.py`) and proofs about the
behaviour of its planning, retry, mirror-pool and download pipeline.

Modelling conventions:
* SHA-1, bz2 decompression and bsdiff application are library calls in the
  source; they are parameters of an `Env` record (`sha1`, `bz2`, `bsdiff`).
  `bz2 = none` models a decoder error (Python raises `OSError`).
* The network is modelled by `Env.fetch`, indexed by a global request
  counter: `fetch i mirror remote = none` models `requests.get` (or
  `raise_for_status`) raising a `RequestException` on the `i`-th request;
  `some payload` is the downloaded body.  `Env.contentLength i` is the
  value of the `Content-Length` response header of the `i`-th request
  (`none` = header absent, in which case `int(None)` raises `TypeError`).
* Directories are modelled as partial maps `String → Option Bytes`:
  `ttr` is the install directory, `temp` the staging directory.
* Python exceptions that escape a function are modelled with explicit
  exception-carrying results (`DLRes.raise`, `Except.error`).
-/

namespace Launcher

abbrev Bytes := List Nat

/-- Point update of a partial map modelling a directory. -/
def upd (m : String → Option Bytes) (k : String) (v : Option Bytes) :
    String → Option Bytes :=
  fun x => if x = k then v else m x

/-- `os.path.basename` for POSIX-style paths, as used by the patcher:
the characters after the last `'/'` (empty for a trailing slash). -/
def basename (s : String) : String :=
  String.mk (s.toList.foldl (fun acc c => if c = '/' then [] else acc ++ [c]) [])

/-! ## `helper.retry` (src/helper.py lines 177-217)

The callback either returns a value or raises an exception (exceptions are
tagged with a `Nat`).  Python truthiness of the returned value is supplied
by two predicates `isN` ("is `None`") and `tr` ("is truthy"), since the
same loop is reused for lists, dicts and booleans in the source. -/

/-- Result of one invocation of the callback: a returned value or a raised
exception (tagged by a number). -/
inductive PyRes (α : Type) where
  | val (v : α)
  | exn (e : Nat)
  deriving DecidableEq

/-- Overall result of `helper.retry`: a returned value, a re-raised
exception, or the `NameError` reached when `count = 0` (both `exception`
and `result` are then unbound in the source). -/
inductive RetryOut (α : Type) where
  | ret (v : α)
  | raise (e : Nat)
  | nameErr
  deriving DecidableEq

/-- Does this callback result terminate the loop?  In the source:
`result is None` breaks, a truthy `result` breaks, a falsy `result` or a
raised exception continues. -/
def breaksR {α : Type} (isN tr : α → Bool) : PyRes α → Bool
  | .val v => isN v || tr v
  | .exn _ => false

/-- The `while attempt < count` loop of `helper.retry`.  `i` is the current
attempt index, the fuel is `count - i`.  Returns the overall outcome, the
number of callback invocations made, and the number of `time.sleep`
calls (the source sleeps after every failed attempt, the last included,
because `attempt < count` always holds inside the loop body). -/
def retryGo {α : Type} (isN tr : α → Bool) (cb : Nat → PyRes α) :
    Nat → Nat → RetryOut α × Nat × Nat
  | _, 0 => (.nameErr, 0, 0)
  | i, rem + 1 =>
    match cb i with
    | .val v =>
      if isN v || tr v then (.ret v, 1, 0)
      else if rem = 0 then (.ret v, 1, 1)
      else
        let r := retryGo isN tr cb (i + 1) rem
        (r.1, r.2.1 + 1, r.2.2 + 1)
    | .exn e =>
      if rem = 0 then (.raise e, 1, 1)
      else
        let r := retryGo isN tr cb (i + 1) rem
        (r.1, r.2.1 + 1, r.2.2 + 1)

/-- `helper.retry(count, interval, callback, ...)`. -/
def retry {α : Type} (isN tr : α → Bool) (cb : Nat → PyRes α)
    (count : Nat) : RetryOut α × Nat × Nat :=
  retryGo isN tr cb 0 count

/-- `Patcher.retry_count` (src/patcher.py line 34). -/
def retry_count : Nat := 3

/-- `Patcher.retry_timeout`, the sleep interval in seconds
(src/patcher.py line 35). -/
def retry_timeout : Nat := 10

/-! ## Mirror pool

The "pool" in the source is the plain Python list `self.mirrors`; eviction
is the inline code in the `except` clause of `__download_file`
(src/patcher.py lines 474-478): `if len(mirrors) > 1: mirrors.remove(mirror)`.
`List.erase` matches `list.remove`ing an element that is present: it drops
the first occurrence. -/

/-- Eviction of a mirror from the pool, exactly as in the `except` branch
of `__download_file`. -/
def evict (mirrors : List String) (mirror : String) : List String :=
  if 1 < mirrors.length then mirrors.erase mirror else mirrors

/-! ## HTTP operations behind `helper.retry`

`__get_mirrors` and `__get_patch_manifest` perform a GET, call
`raise_for_status` and decode the body as JSON.  A per-attempt oracle says
whether the attempt raised a transport error, a non-2xx status error, a
JSON decode error, or returned a decoded value. -/

/-- The three exception kinds an HTTP operation of the patcher can raise. -/
inductive HttpErr where
  | transport
  | non2xx
  | decode
  deriving DecidableEq

/-- Exception tag (for `PyRes.exn`) of each HTTP error kind. -/
def exnOf : HttpErr → Nat
  | .transport => 0
  | .non2xx => 1
  | .decode => 2

/-- Outcome of one HTTP attempt: an error raised, or the decoded value. -/
inductive HttpOutcome (α : Type) where
  | err (e : HttpErr)
  | ok (v : α)
  deriving DecidableEq

/-- Is the attempt outcome an error? -/
def HttpOutcome.isErr {α : Type} : HttpOutcome α → Bool
  | .err _ => true
  | .ok _ => false

/-- `__get_mirrors` (src/patcher.py lines 50-63) as a retry callback.
`o i` is the outcome of the `i`-th attempt; on success the decoded list is
shuffled in place by `random.shuffle`, modelled by the `shuffle`
function. -/
def get_mirrors_cb (o : Nat → HttpOutcome (List String))
    (shuffle : List String → List String) : Nat → PyRes (List String) :=
  fun i =>
    match o i with
    | .err e => .exn (exnOf e)
    | .ok l => .val (shuffle l)

/-- `helper.retry(retry_count, retry_timeout, __get_mirrors)` as called
from `Patcher.__init__` (src/patcher.py lines 36-38).  A Python list is
never `None` and is truthy iff non-empty. -/
def get_mirrors_run (o : Nat → HttpOutcome (List String))
    (shuffle : List String → List String) : RetryOut (List String) × Nat × Nat :=
  retry (fun _ => false) (fun l => !l.isEmpty) (get_mirrors_cb o shuffle)
    retry_count

/-! ## Patch manifest data model

A manifest is a JSON object keyed by filename.  Fields that the source
reads under a `KeyError` guard (`dl`, `hash`, `compHash`) are `Option`s;
a missing field outside the guard makes the model raise `keyError`, like
the source.  `only` and `patches` are read unguarded, so they are total
fields. -/

/-- One value of the `patches` dict of a manifest entry. -/
structure PatchDesc where
  filename : String
  patchHash : Nat
  compPatchHash : Nat
  deriving DecidableEq

/-- One manifest entry. -/
structure ManifestEntry where
  only : List String
  hash : Option Nat
  dl : Option String
  compHash : Option Nat
  patches : List (Nat × PatchDesc)
  deriving DecidableEq

/-- The manifest: an ordered association list keyed by filename. -/
abbrev Manifest := List (String × ManifestEntry)

/-- Dict lookup in the manifest (`patch_manifest[filename]`, after the
`filename in patch_manifest` membership test). -/
def lookupM : Manifest → String → Option ManifestEntry
  | [], _ => none
  | (k, e) :: rest, f => if f = k then some e else lookupM rest f

/-- Dict lookup in an entry's `patches`
(`patch_manifest[filename]['patches'][sha1sum]`). -/
def lookupP : List (Nat × PatchDesc) → Nat → Option PatchDesc
  | [], _ => none
  | (k, d) :: rest, h => if h = k then some d else lookupP rest h

/-- `__get_patch_manifest` (src/patcher.py lines 154-171) as a retry
callback: GET, `raise_for_status`, JSON decode. -/
def get_patch_manifest_cb (o : Nat → HttpOutcome Manifest) :
    Nat → PyRes Manifest :=
  fun i =>
    match o i with
    | .err e => .exn (exnOf e)
    | .ok m => .val m

/-- `helper.retry(retry_count, retry_timeout, __get_patch_manifest, ...)`
as called from `__patch_worker` (src/patcher.py lines 106-109).  A Python
dict is never `None` and is truthy iff non-empty. -/
def get_patch_manifest_run (o : Nat → HttpOutcome Manifest) :
    RetryOut Manifest × Nat × Nat :=
  retry (fun _ => false) (fun m : Manifest => !m.isEmpty)
    (get_patch_manifest_cb o) retry_count

/-! ## Download info (the planner's output)

`download_info` values in the source are dicts with a `'type'` key
(`'full'` or `'patch'`), a `local_filename`, the decompressed `hash`, the
compressed `comp_hash`, and (for patches only) a `post_patch_hash`. -/

/-- The `'type'` field of a `download_info` value. -/
inductive DLType where
  | full
  | patch
  deriving DecidableEq

/-- One `download_info` value (src/patcher.py lines 219-241). -/
structure DInfo where
  dltype : DLType
  local_filename : String
  hash : Nat
  comp_hash : Nat
  post_patch_hash : Option Nat
  deriving DecidableEq

/-- Exceptions the modelled patcher code can let escape. -/
inductive PyExn where
  | requestError
  | typeError
  | osError
  | keyError
  | fileNotFound
  | indexError
  deriving DecidableEq

/-- External-library behaviour the patcher composes: hashing,
decompression, patch application and the network.  `fetch i m r` is the
body served for the `i`-th HTTP payload request to `urljoin(m, r)` (`none`
= `RequestException` raised); `contentLength i` is the `Content-Length`
header of that response. -/
structure Env where
  sha1 : Bytes → Nat
  bz2 : Bytes → Option Bytes
  bsdiff : Bytes → Bytes → Bytes
  fetch : Nat → String → String → Option Bytes
  contentLength : Nat → Option Nat

/-- `__check_patch` (src/patcher.py lines 207-327).  `key` is the filename
the manifest iteration is at (the file is opened at `join(ttr_dir, key)`,
i.e. `fs key`), while all manifest accesses use `basename key`.  Returns
the `download_info_new` contribution (at most one key/value pair), or the
exception that escapes (a `KeyError` outside the guarded block). -/
def check_patch (env : Env) (system : String) (manifest : Manifest)
    (key : String) (fs : String → Option Bytes) :
    Except PyExn (Option (String × DInfo)) :=
  let filename := basename key
  match lookupM manifest filename with
  | none => .ok none
  | some entry =>
    if system ∈ entry.only then
      match fs key with
      | some contents =>
        match entry.hash with
        | none => .error .keyError
        | some h =>
          let sha1sum := env.sha1 contents
          if sha1sum ≠ h then
            match lookupP entry.patches sha1sum with
            | some pd =>
              .ok (some (basename pd.filename,
                ⟨.patch, filename, pd.patchHash, pd.compPatchHash, some h⟩))
            | none =>
              match entry.dl, entry.compHash with
              | some dl, some ch =>
                .ok (some (dl, ⟨.full, filename, h, ch, none⟩))
              | _, _ => .error .keyError
          else .ok none
      | none =>
        match entry.dl, entry.hash, entry.compHash with
        | some dl, some h, some ch =>
          .ok (some (dl, ⟨.full, filename, h, ch, none⟩))
        | _, _, _ => .ok none
    else .ok none

/-- `download_info.update(download_info_new)`: replace an existing key in
place or append a fresh one. -/
def updateAssoc (l : List (String × DInfo)) (kv : String × DInfo) :
    List (String × DInfo) :=
  if l.any (fun p => p.1 = kv.1) then
    l.map (fun p => if p.1 = kv.1 then kv else p)
  else l ++ [kv]

/-- The planning loop of `__check_files` (src/patcher.py lines 188-195):
fold `__check_patch` over the manifest keys, accumulating
`download_info`. -/
def planAux (env : Env) (system : String) (manifest : Manifest)
    (fs : String → Option Bytes) :
    List String → List (String × DInfo) → Except PyExn (List (String × DInfo))
  | [], acc => .ok acc
  | k :: ks, acc =>
    match check_patch env system manifest k fs with
    | .error e => .error e
    | .ok none => planAux env system manifest fs ks acc
    | .ok (some kv) => planAux env system manifest fs ks (updateAssoc acc kv)

/-- The `download_info` dict built by `__check_files` for a manifest. -/
def plan (env : Env) (system : String) (manifest : Manifest)
    (fs : String → Option Bytes) : Except PyExn (List (String × DInfo)) :=
  planAux env system manifest fs (manifest.map (fun p => p.1)) []

/-! ## The per-action download pipeline -/

/-- Mutable state threaded through a run: the shared mirror list, the
install directory (`ttr_dir`), the staging directory (`temp_dir`), a
global counter of issued payload HTTP requests, and a log recording, for
each eviction that actually removed a mirror, the ordinal of the request
that triggered it. -/
structure DLState where
  mirrors : List String
  ttr : String → Option Bytes
  temp : String → Option Bytes
  fetchCount : Nat
  evictLog : List Nat

/-- Result of one call of `__download_file` (or of one of its helpers):
a returned boolean or an escaping Python exception. -/
inductive DLRes where
  | ok (b : Bool)
  | raise (e : PyExn)
  deriving DecidableEq

/-- `__decompress_bz2` (src/patcher.py lines 482-517): read the staged
compressed file, stream-decompress it into the staging directory, and
verify the decompressed hash.  A decoder error surfaces as the `OSError`
`bz2` raises while reading (only the output file has been created at that
point); the `OSError` is not caught anywhere in `__download_file`. -/
def decompress_bz2 (env : Env) (s : DLState) (compPath decompPath : String)
    (decompHash : Nat) : DLRes × DLState :=
  match s.temp compPath with
  | none => (.raise .fileNotFound, s)
  | some comp =>
    match env.bz2 comp with
    | none => (.raise .osError, { s with temp := upd s.temp decompPath (some []) })
    | some d =>
      let s' := { s with temp := upd s.temp decompPath (some d) }
      if env.sha1 d ≠ decompHash then (.ok false, s') else (.ok true, s')

/-- `__process_decompressed_file` (src/patcher.py lines 519-551): move a
full download into the install directory, or apply a bsdiff patch in
place and verify the post-patch hash. -/
def process_decompressed_file (env : Env) (s : DLState) (info : DInfo) :
    DLRes × DLState :=
  let lf := info.local_filename
  match info.dltype with
  | .full =>
    match s.temp lf with
    | none => (.raise .fileNotFound, s)
    | some d =>
      (.ok true, { s with ttr := upd s.ttr lf (some d), temp := upd s.temp lf none })
  | .patch =>
    match s.ttr lf with
    | none => (.raise .fileNotFound, s)
    | some base =>
      match s.temp lf with
      | none => (.raise .fileNotFound, s)
      | some patchBytes =>
        let patched := env.bsdiff base patchBytes
        let s' := { s with ttr := upd s.ttr lf (some patched) }
        match info.post_patch_hash with
        | none => (.raise .keyError, s')
        | some post =>
          if env.sha1 patched ≠ post then (.ok false, s') else (.ok true, s')

/-- Mirror eviction as performed inside the `except` clause of
`__download_file`, with its log entry. -/
def evictState (s : DLState) (mirror : String) : DLState :=
  { s with
    mirrors := evict s.mirrors mirror
    evictLog :=
      if 1 < s.mirrors.length then s.evictLog ++ [s.fetchCount] else s.evictLog }

/-- `__download_file` (src/patcher.py lines 415-480).  One pipeline
attempt: fetch from the head mirror, stage, verify the compressed hash,
decompress, verify the decompressed hash, install.  The `except
(FileNotFoundError, RequestException)` clause wraps the whole body: those
two exceptions evict the current mirror (when more than one remains) and
turn into a `False` return; every other exception escapes.  A missing
`Content-Length` header makes `int(response.headers.get('Content-Length'))`
raise `TypeError` after the staging file was opened (hence created empty)
but before any chunk was written. -/
def download_file (env : Env) (info : DInfo) (remote : String)
    (s : DLState) : DLRes × DLState :=
  match s.mirrors with
  | [] => (.raise .indexError, s)
  | mirror :: _ =>
    let fc := s.fetchCount
    let s0 : DLState := { s with fetchCount := fc + 1 }
    let r :=
      match env.fetch fc mirror remote with
      | none => (DLRes.raise .requestError, s0)
      | some payload =>
        match env.contentLength fc with
        | none => (DLRes.raise .typeError,
            { s0 with temp := upd s0.temp remote (some []) })
        | some _ =>
          let s1 : DLState := { s0 with temp := upd s0.temp remote (some payload) }
          if env.sha1 payload ≠ info.comp_hash then (DLRes.ok false, s1)
          else
            match decompress_bz2 env s1 remote info.local_filename info.hash with
            | (.ok true, s2) => process_decompressed_file env s2 info
            | other => other
    match r with
    | (.raise .requestError, s') => (.ok false, evictState s' mirror)
    | (.raise .fileNotFound, s') => (.ok false, evictState s' mirror)
    | other => other

/-- Result of `__attempt_download_file`: the value `helper.retry` returns
for the boolean-valued callback `__download_file`, or the exception it
re-raises. -/
inductive ARes where
  | ret (b : Bool)
  | raised (e : PyExn)
  | nameErr
  deriving DecidableEq

/-- `helper.retry` specialised to the stateful boolean callback
`__download_file` (the callback never returns `None`); the fuel is the
number of attempts left. -/
def retry_download (env : Env) (info : DInfo) (remote : String) :
    Nat → DLState → ARes × DLState
  | 0, s => (.nameErr, s)
  | rem + 1, s =>
    match download_file env info remote s with
    | (.ok true, s') => (.ret true, s')
    | (.ok false, s') =>
      if rem = 0 then (.ret false, s')
      else retry_download env info remote rem s'
    | (.raise e, s') =>
      if rem = 0 then (.raised e, s')
      else retry_download env info remote rem s'

/-- `__attempt_download_file` (src/patcher.py lines 397-413):
`helper.retry(retry_count, retry_timeout, __download_file, False, ...)`. -/
def attempt_download_file (env : Env) (info : DInfo) (remote : String)
    (s : DLState) : ARes × DLState :=
  retry_download env info remote retry_count s

/-- Run the planned actions one after the other (the sequential projection
of the thread pool in `__download_worker`; distinct actions write distinct
staging files and the executor joins all futures before results are
examined). -/
def runActions (env : Env) : List (String × DInfo) → DLState → List ARes × DLState
  | [], s => ([], s)
  | (remote, info) :: rest, s =>
    let (r, s') := attempt_download_file env info remote s
    let (rs, s'') := runActions env rest s'
    (r :: rs, s'')

/-- First exception re-raised by a `future.result()` call, if any. -/
def firstRaised : List ARes → Option PyExn
  | [] => none
  | .raised e :: _ => some e
  | _ :: rest => firstRaised rest

/-- Did this action succeed? -/
def ARes.isTrue : ARes → Bool
  | .ret true => true
  | _ => false

/-- `__download_worker` (src/patcher.py lines 348-395): stage every
download in a temporary directory, run the actions, and succeed only when
every action succeeded.  The temporary directory is removed on exit; an
exception escaping a worker escapes the whole run. -/
def download_worker (env : Env) (actions : List (String × DInfo))
    (s : DLState) : Except PyExn (Bool × DLState) :=
  let (rs, s') := runActions env actions s
  let s'' : DLState := { s' with temp := fun _ => none }
  match firstRaised rs with
  | some e => .error e
  | none => .ok (rs.all ARes.isTrue, s'')

/-- `__check_files` (src/patcher.py lines 173-205): build the plan; when
it is empty return `True` at once (no worker, no HTTP payload request, no
file modified), otherwise hand the plan to `__download_worker`. -/
def check_files (env : Env) (system : String) (manifest : Manifest)
    (s : DLState) : Except PyExn (Bool × DLState) :=
  match plan env system manifest s.ttr with
  | .error e => .error e
  | .ok [] => .ok (true, s)
  | .ok dl => download_worker env dl s

/-! ## Concrete test fixtures

Used by the closed counterexample theorems and the witnesses.  The hash,
decompressor and patcher are small executable stand-ins for the library
functions the source calls (the claims are conditional on hash equalities,
so the theorems hold for the abstract `Env`; the fixtures instantiate
it). -/

/-- A toy content hash: the sum of the bytes. -/
def sumHash : Bytes → Nat := fun b => b.foldl (fun a x => a + x) 0

/-- A default well-behaved environment: every fetch serves `[1, 2]` with a
`Content-Length` header, decompression doubles the payload, a patch is
appended to its base. -/
def envW : Env :=
  { sha1 := sumHash
    bz2 := fun b => some (b ++ b)
    bsdiff := fun b d => b ++ d
    fetch := fun _ _ _ => some [1, 2]
    contentLength := fun _ => some 4 }

/-- A starting state: two mirrors, an install dir holding `g = [2, 3]`,
an empty staging dir. -/
def sW : DLState :=
  { mirrors := ["m1", "m2"]
    ttr := fun k => if k = "g" then some [2, 3] else none
    temp := fun _ => none
    fetchCount := 0
    evictLog := [] }

/-- A manifest entry whose target hash matches `sW`'s file `g`
(`sumHash [2, 3] = 5`). -/
def eUpToDate : ManifestEntry :=
  ⟨["linux"], some 5, some "d.bz2", some 7, []⟩

/-- A manifest entry with target hash `5` and a patch keyed by source
hash `5` — the patches key equals the target hash. -/
def ePatchIsTarget : ManifestEntry :=
  ⟨["linux"], some 5, some "d.bz2", some 7, [(5, ⟨"pp/p.bz2", 9, 11⟩)]⟩

/-- A manifest entry with target hash `9` and a patch keyed by source
hash `5` (the hash of `sW`'s file `g`). -/
def ePatchFromG : ManifestEntry :=
  ⟨["linux"], some 9, some "d.bz2", some 7, [(5, ⟨"pp/p.bz2", 4, 11⟩)]⟩

/-- Like `envW` but the HTTP responses carry no `Content-Length`
header. -/
def envNoCL : Env := { envW with contentLength := fun _ => none }

/-- Every fetch raises a `RequestException`. -/
def envDown : Env := { envW with fetch := fun _ _ _ => none }

/-- Fetch serves `[4]` with a `Content-Length` header. -/
def envHdr : Env :=
  { envW with fetch := fun _ _ _ => some [4], contentLength := fun _ => some 1 }

/-- Fetch serves `[4]` but the response has no `Content-Length` header. -/
def envNoHdr : Env := { envHdr with contentLength := fun _ => none }

/-! ## Lemmas about `helper.retry` -/

theorem retryGo_calls_le {α : Type} (isN tr : α → Bool) (cb : Nat → PyRes α) :
    ∀ rem i, (retryGo isN tr cb i rem).2.1 ≤ rem := by
  intro rem
  induction rem with
  | zero => intro i; simp [retryGo]
  | succ n ih =>
    intro i
    have h2 := ih (i + 1)
    cases hcb : cb i with
    | val v =>
      by_cases hb : (isN v || tr v) = true
      · simp [retryGo, hcb, hb]
      · by_cases hn : n = 0
        · simp [retryGo, hcb, hb, hn]
        · simp [retryGo, hcb, hb, hn]
          omega
    | exn e =>
      by_cases hn : n = 0
      · simp [retryGo, hcb, hn]
      · simp [retryGo, hcb, hn]
        omega

theorem retryGo_first_break {α : Type} (isN tr : α → Bool) (cb : Nat → PyRes α) :
    ∀ rem i j v, i ≤ j → j < i + rem → cb j = .val v →
      (isN v || tr v) = true →
      (∀ k, i ≤ k → k < j → breaksR isN tr (cb k) = false) →
      retryGo isN tr cb i rem = (.ret v, j - i + 1, j - i) := by
  intro rem
  induction rem with
  | zero => intro i j v h1 h2 _ _ _; omega
  | succ n ih =>
    intro i j v hij hlt hcb hbv hmin
    by_cases hji : j = i
    · subst hji
      simp [retryGo, hcb, hbv]
    · have hilt : i < j := lt_of_le_of_ne hij (Ne.symm hji)
      have hbi : breaksR isN tr (cb i) = false := hmin i le_rfl hilt
      have hn : n ≠ 0 := by omega
      have hrec := ih (i + 1) j v (by omega) (by omega) hcb hbv
        (fun k hk1 hk2 => hmin k (by omega) hk2)
      cases hcbi : cb i with
      | val w =>
        have hw : (isN w || tr w) = false := by
          rw [hcbi] at hbi; simpa [breaksR] using hbi
        simp [retryGo, hcbi, hw, hn, hrec, Prod.ext_iff]
        omega
      | exn e =>
        simp [retryGo, hcbi, hn, hrec, Prod.ext_iff]
        omega

theorem retryGo_no_break {α : Type} (isN tr : α → Bool) (cb : Nat → PyRes α) :
    ∀ rem i, 1 ≤ rem →
      (∀ k, i ≤ k → k < i + rem → breaksR isN tr (cb k) = false) →
      (retryGo isN tr cb i rem).2.1 = rem ∧
      (∀ e, cb (i + rem - 1) = .exn e →
        (retryGo isN tr cb i rem).1 = .raise e) ∧
      (∀ v, cb (i + rem - 1) = .val v →
        (retryGo isN tr cb i rem).1 = .ret v) := by
  intro rem
  induction rem with
  | zero => intro i h; omega
  | succ n ih =>
    intro i _ hall
    have hbi : breaksR isN tr (cb i) = false := hall i le_rfl (by omega)
    by_cases hn : n = 0
    · subst hn
      have hidx : i + (0 + 1) - 1 = i := by omega
      rw [hidx]
      refine ⟨?_, ?_, ?_⟩
      · cases hcbi : cb i with
        | val v =>
          have hw : (isN v || tr v) = false := by
            rw [hcbi] at hbi; simpa [breaksR] using hbi
          simp [retryGo, hcbi, hw]
        | exn e => simp [retryGo, hcbi]
      · intro e he
        simp [retryGo, he]
      · intro v hv
        have hw : (isN v || tr v) = false := by
          rw [hv] at hbi; simpa [breaksR] using hbi
        simp [retryGo, hv, hw]
    · have IH := ih (i + 1) (by omega)
        (fun k hk1 hk2 => hall k (by omega) (by omega))
      have hidx : i + 1 + n - 1 = i + (n + 1) - 1 := by omega
      rw [hidx] at IH
      refine ⟨?_, ?_, ?_⟩
      · cases hcbi : cb i with
        | val v =>
          have hw : (isN v || tr v) = false := by
            rw [hcbi] at hbi; simpa [breaksR] using hbi
          simp [retryGo, hcbi, hw, hn, IH.1]
        | exn e => simp [retryGo, hcbi, hn, IH.1]
      · intro e he
        cases hcbi : cb i with
        | val v =>
          have hw : (isN v || tr v) = false := by
            rw [hcbi] at hbi; simpa [breaksR] using hbi
          simp only [retryGo, hcbi]
          simp [hw, hn]
          exact IH.2.1 e he
        | exn e0 =>
          simp only [retryGo, hcbi]
          simp [hn]
          exact IH.2.1 e he
      · intro v hv
        cases hcbi : cb i with
        | val w =>
          have hw : (isN w || tr w) = false := by
            rw [hcbi] at hbi; simpa [breaksR] using hbi
          simp only [retryGo, hcbi]
          simp [hw, hn]
          exact IH.2.2 v hv
        | exn e0 =>
          simp only [retryGo, hcbi]
          simp [hn]
          exact IH.2.2 v hv

/-- C10: for every `count ≥ 1`, `retry(count, interval, callback, ...)`
invokes the callback at most `count` times; it stops and returns the
result of the first invocation whose result is truthy or is `None` (`None`
is treated as success, not failure); if the final invocation raised an
exception that exception is re-raised, and otherwise the final falsy
result is returned. -/
theorem retry_spec {α : Type} (isN tr : α → Bool) (cb : Nat → PyRes α)
    (count : Nat) (hc : 1 ≤ count) :
    ((retry isN tr cb count).2.1 ≤ count)
    ∧ (∀ j v, j < count → cb j = .val v → (isN v || tr v) = true →
        (∀ k, k < j → breaksR isN tr (cb k) = false) →
        retry isN tr cb count = (.ret v, j + 1, j))
    ∧ ((∀ k, k < count → breaksR isN tr (cb k) = false) →
        (∀ e, cb (count - 1) = .exn e → (retry isN tr cb count).1 = .raise e)
        ∧ (∀ v, cb (count - 1) = .val v → (retry isN tr cb count).1 = .ret v)) := by
  refine ⟨retryGo_calls_le isN tr cb count 0, ?_, ?_⟩
  · intro j v hj hcb hbv hmin
    have := retryGo_first_break isN tr cb count 0 j v (by omega) (by omega)
      hcb hbv (fun k _ hk2 => hmin k hk2)
    simpa using this
  · intro hall
    have := retryGo_no_break isN tr cb count 0 hc
      (fun k _ hk2 => hall k (by omega))
    simp only [Nat.zero_add] at this
    exact ⟨this.2.1, this.2.2⟩

/-- Witness for C10 at a concrete callback: attempt 0 raises, attempt 1
returns a falsy value, attempt 2 returns a truthy value; the loop stops
at attempt 2 with that value after three invocations. -/
theorem retry_spec_witness :
    retry (fun v : Option Bool => v.isNone) (fun v => v.getD false)
      (fun i => if i = 0 then .exn 7
        else if i = 1 then .val (some false) else .val (some true)) 3
      = (.ret (some true), 3, 2) :=
  (retry_spec (fun v : Option Bool => v.isNone) (fun v => v.getD false)
    (fun i => if i = 0 then .exn 7
      else if i = 1 then .val (some false) else .val (some true)) 3
    (by decide)).2.1 2 (some true) (by decide) (by decide) (by decide)
    (by decide)

/-! ## C8: retry behaviour of the HTTP operations -/

theorem get_mirrors_cb_no_break (o : Nat → HttpOutcome (List String))
    (sh : List String → List String) (k : Nat) (h : (o k).isErr = true) :
    breaksR (fun _ => false) (fun l => !l.isEmpty) (get_mirrors_cb o sh k)
      = false := by
  cases hk : o k with
  | err e => simp [get_mirrors_cb, breaksR, hk]
  | ok v => rw [hk] at h; simp [HttpOutcome.isErr] at h

theorem get_patch_manifest_cb_no_break (o : Nat → HttpOutcome Manifest)
    (k : Nat) (h : (o k).isErr = true) :
    breaksR (fun _ => false) (fun m : Manifest => !m.isEmpty)
      (get_patch_manifest_cb o k) = false := by
  cases hk : o k with
  | err e => simp [get_patch_manifest_cb, breaksR, hk]
  | ok v => rw [hk] at h; simp [HttpOutcome.isErr] at h

/-- C8 counterexample: a JSON decode error on the first attempt of the
mirrors fetch is retried, and the operation then succeeds on the second
attempt (two callback invocations, one sleep) — it does not fail on the
first decode failure as the claim states. -/
theorem get_mirrors_decode_error_retried :
    get_mirrors_run (fun i => if i = 0 then .err .decode else .ok ["m"]) id
      = (.ret ["m"], 2, 1) := by decide

/-- C8 (amended): both HTTP operations (mirrors fetch, manifest fetch) go
through `helper.retry(3, 10)`: the callback is invoked at most 3 times,
and any raised exception — transport error, non-2xx status, or JSON
decode error alike — triggers a retry; when every attempt raises, the
callback is invoked exactly 3 times and the last exception is
re-raised. -/
theorem http_retry_spec :
    (∀ o sh, (get_mirrors_run o sh).2.1 ≤ retry_count)
    ∧ (∀ o sh, (∀ k, k < retry_count → (o k).isErr = true) →
        ∀ e, o (retry_count - 1) = .err e →
          (get_mirrors_run o sh).1 = .raise (exnOf e)
          ∧ (get_mirrors_run o sh).2.1 = retry_count)
    ∧ (∀ o, (get_patch_manifest_run o).2.1 ≤ retry_count)
    ∧ (∀ o, (∀ k, k < retry_count → (o k).isErr = true) →
        ∀ e, o (retry_count - 1) = .err e →
          (get_patch_manifest_run o).1 = .raise (exnOf e)
          ∧ (get_patch_manifest_run o).2.1 = retry_count) := by
  refine ⟨?_, ?_, ?_, ?_⟩
  · intro o sh
    exact retryGo_calls_le _ _ _ retry_count 0
  · intro o sh hall e he
    have hnb := retryGo_no_break (fun _ => false)
      (fun l : List String => !l.isEmpty) (get_mirrors_cb o sh)
      retry_count 0 (by decide)
      (fun k _ hk2 => get_mirrors_cb_no_break o sh k (hall k (by omega)))
    have hcb : get_mirrors_cb o sh (0 + retry_count - 1) = .exn (exnOf e) := by
      have : (0 : Nat) + retry_count - 1 = retry_count - 1 := by omega
      rw [this]
      simp [get_mirrors_cb, he]
    exact ⟨hnb.2.1 (exnOf e) hcb, hnb.1⟩
  · intro o
    exact retryGo_calls_le _ _ _ retry_count 0
  · intro o hall e he
    have hnb := retryGo_no_break (fun _ => false)
      (fun m : Manifest => !m.isEmpty) (get_patch_manifest_cb o)
      retry_count 0 (by decide)
      (fun k _ hk2 => get_patch_manifest_cb_no_break o k (hall k (by omega)))
    have hcb : get_patch_manifest_cb o (0 + retry_count - 1) = .exn (exnOf e) := by
      have : (0 : Nat) + retry_count - 1 = retry_count - 1 := by omega
      rw [this]
      simp [get_patch_manifest_cb, he]
    exact ⟨hnb.2.1 (exnOf e) hcb, hnb.1⟩

/-- Witness for the amended C8: a mirrors fetch whose three attempts all
raise a JSON decode error invokes the callback three times and re-raises
the decode error. -/
theorem http_retry_spec_witness :
    (get_mirrors_run (fun _ => .err .decode) id).1 = .raise (exnOf .decode)
    ∧ (get_mirrors_run (fun _ => .err .decode) id).2.1 = retry_count :=
  http_retry_spec.2.1 (fun _ => .err .decode) id (fun _ _ => rfl) .decode rfl

/-! ## C6: mirror-pool eviction -/

theorem evict_ne_nil (pool : List String) (m : String) (h : pool ≠ []) :
    evict pool m ≠ [] := by
  have hpos : 0 < pool.length := List.length_pos.mpr h
  have hlen : 0 < (evict pool m).length := by
    unfold evict
    by_cases h1 : 1 < pool.length
    · rw [if_pos h1]
      by_cases hm : m ∈ pool
      · rw [List.length_erase_of_mem hm]; omega
      · rw [List.erase_of_not_mem hm]; omega
    · rw [if_neg h1]; omega
  exact List.length_pos.mp hlen

/-- C6: `evict(mirror)` removes the given base URL from the pool exactly
when more than one mirror remains before the call (the pool shrinks by
one iff `1 < |pool|`, and is returned untouched otherwise); consequently
any sequence of evictions starting from a non-empty pool leaves the pool
non-empty. -/
theorem evict_spec :
    (∀ (pool : List String) (m : String), m ∈ pool →
      (((evict pool m).length < pool.length) ↔ 1 < pool.length)
      ∧ (1 < pool.length → evict pool m = pool.erase m)
      ∧ (¬ 1 < pool.length → evict pool m = pool))
    ∧ (∀ pool : List String, pool ≠ [] → ∀ ms : List String,
        List.foldl evict pool ms ≠ []) := by
  constructor
  · intro pool m hm
    have hpos : 0 < pool.length := List.length_pos_of_mem hm
    by_cases h1 : 1 < pool.length
    · have hlen := List.length_erase_of_mem hm
      refine ⟨?_, fun _ => by simp [evict, h1], fun hc => absurd h1 hc⟩
      unfold evict
      rw [if_pos h1, hlen]
      omega
    · refine ⟨?_, fun hc => absurd hc h1, fun _ => by simp [evict, h1]⟩
      unfold evict
      rw [if_neg h1]
      omega
  · intro pool hne ms
    induction ms generalizing pool with
    | nil => exact hne
    | cons m rest ih =>
      exact ih (evict pool m) (evict_ne_nil pool m hne)

/-- Witness for C6: evicting from a two-mirror pool shrinks it, and a
singleton pool survives any eviction sequence. -/
theorem evict_spec_witness :
    ((evict ["a", "b"] "a").length < (["a", "b"] : List String).length)
    ∧ List.foldl evict ["a"] ["a", "a"] ≠ [] :=
  ⟨((evict_spec.1 ["a", "b"] "a" (by decide)).1).mpr (by decide),
    evict_spec.2 ["a"] (by decide) ["a", "a"]⟩

/-! ## Planner lemmas (C3, C4, C5) -/

theorem lookupM_mem : ∀ (M : Manifest) (k : String) (e : ManifestEntry),
    lookupM M k = some e → (k, e) ∈ M := by
  intro M
  induction M with
  | nil => intro k e h; simp [lookupM] at h
  | cons p rest ih =>
    intro k e h
    rw [lookupM] at h
    by_cases hk : k = p.1
    · rw [if_pos hk] at h
      cases h
      rw [hk]
      exact List.mem_cons_self p rest
    · rw [if_neg hk] at h
      exact List.mem_cons_of_mem p (ih k e h)

theorem lookupM_of_mem_keys : ∀ (M : Manifest) (k : String),
    k ∈ M.map (fun p => p.1) → ∃ e, lookupM M k = some e := by
  intro M
  induction M with
  | nil => intro k h; simp at h
  | cons p rest ih =>
    intro k h
    by_cases hk : k = p.1
    · exact ⟨p.2, by rw [lookupM, if_pos hk]⟩
    · rw [List.map_cons, List.mem_cons] at h
      rcases h with h | h
      · exact absurd h hk
      · obtain ⟨e, he⟩ := ih k h
        exact ⟨e, by rw [lookupM, if_neg hk]; exact he⟩

theorem planAux_all_none (env : Env) (sys : String) (M : Manifest)
    (fs : String → Option Bytes) :
    ∀ (keys : List String) (acc : List (String × DInfo)),
    (∀ k ∈ keys, check_patch env sys M k fs = .ok none) →
    planAux env sys M fs keys acc = .ok acc := by
  intro keys
  induction keys with
  | nil => intro acc _; rfl
  | cons k rest ih =>
    intro acc hall
    rw [planAux, hall k (List.mem_cons_self k rest)]
    exact ih acc (fun k' hk' => hall k' (List.mem_cons_of_mem k hk'))

/-- C3: a manifest entry applicable to the current platform whose local
file exists with a hash equal to the entry's hash contributes no
download; consequently, when every applicable file is up to date the plan
is empty and `__check_files` returns `True` at once, with the state (no
HTTP request counted, no file changed) untouched. -/
theorem check_files_up_to_date :
    (∀ (env : Env) (sys : String) (M : Manifest)
        (fs : String → Option Bytes) (F : String) (e : ManifestEntry)
        (b : Bytes),
      lookupM M F = some e → basename F = F → sys ∈ e.only →
      fs F = some b → e.hash = some (env.sha1 b) →
      check_patch env sys M F fs = .ok none)
    ∧ (∀ (env : Env) (sys : String) (M : Manifest) (s : DLState),
      (∀ p ∈ M, basename p.1 = p.1) →
      (∀ p ∈ M, sys ∈ p.2.only →
        ∃ b, s.ttr p.1 = some b ∧ p.2.hash = some (env.sha1 b)) →
      plan env sys M s.ttr = .ok [] ∧ check_files env sys M s = .ok (true, s)) := by
  have hfile : ∀ (env : Env) (sys : String) (M : Manifest)
      (fs : String → Option Bytes) (F : String) (e : ManifestEntry)
      (b : Bytes),
      lookupM M F = some e → basename F = F → sys ∈ e.only →
      fs F = some b → e.hash = some (env.sha1 b) →
      check_patch env sys M F fs = .ok none := by
    intro env sys M fs F e b hl hb hsys hc hh
    simp only [check_patch, hb, hl, hc, hh, if_pos hsys]
    simp
  refine ⟨hfile, ?_⟩
  intro env sys M s hkeys hup
  have hplan : plan env sys M s.ttr = .ok [] := by
    apply planAux_all_none
    intro k hk
    obtain ⟨e, hl⟩ := lookupM_of_mem_keys M k hk
    have hmem : (k, e) ∈ M := lookupM_mem M k e hl
    have hb : basename k = k := hkeys (k, e) hmem
    by_cases hsys : sys ∈ e.only
    · obtain ⟨b, hc, hh⟩ := hup (k, e) hmem hsys
      exact hfile env sys M s.ttr k e b hl hb hsys hc hh
    · simp only [check_patch, hb, hl, if_neg hsys]
  refine ⟨hplan, ?_⟩
  unfold check_files
  rw [hplan]

/-- Witness for C3: a single-entry manifest whose file is present and up
to date yields an empty plan and an untouched successful run. -/
theorem check_files_up_to_date_witness :
    plan envW "linux" [("g", eUpToDate)] sW.ttr = .ok []
    ∧ check_files envW "linux" [("g", eUpToDate)] sW = .ok (true, sW) :=
  check_files_up_to_date.2 envW "linux" [("g", eUpToDate)] sW
    (by intro p hp; simp only [List.mem_singleton] at hp; subst hp; rfl)
    (by
      intro p hp _
      simp only [List.mem_singleton] at hp
      subst hp
      exact ⟨[2, 3], rfl, rfl⟩)

/-- C4 counterexample: in `ePatchIsTarget` the hash of the local file
`g` (`sumHash [2, 3] = 5`) is a key of the entry's `patches`, yet — the
hash also being equal to the entry's target hash — the planner emits no
action at all, so the plan contains no `PatchDownload` for `g`. -/
theorem check_patch_patches_key_skipped :
    (lookupP ePatchIsTarget.patches (envW.sha1 [2, 3])).isSome = true
    ∧ sW.ttr "g" = some [2, 3]
    ∧ plan envW "linux" [("g", ePatchIsTarget)] sW.ttr = .ok [] :=
  ⟨rfl, rfl, rfl⟩

/-- C4 (amended): for every manifest entry applicable to the current
platform whose local file exists, whose current hash differs from the
entry's target hash, and whose current hash is a key of the entry's
patches, the planner emits a `PatchDownload` action carrying that patch
entry's decompressed and compressed patch hashes and the entry's target
hash as post-patch hash (shown per entry, and for the plan of the
single-entry manifest). -/
theorem check_patch_patch_download (env : Env) (sys : String) (M : Manifest)
    (fs : String → Option Bytes) (F : String) (e : ManifestEntry) (b : Bytes)
    (h : Nat) (pd : PatchDesc)
    (hl : lookupM M F = some e) (hb : basename F = F) (hsys : sys ∈ e.only)
    (hc : fs F = some b) (hh : e.hash = some h) (hne : env.sha1 b ≠ h)
    (hp : lookupP e.patches (env.sha1 b) = some pd) :
    check_patch env sys M F fs
      = .ok (some (basename pd.filename,
          ⟨.patch, F, pd.patchHash, pd.compPatchHash, some h⟩))
    ∧ plan env sys [(F, e)] fs
      = .ok [(basename pd.filename,
          ⟨.patch, F, pd.patchHash, pd.compPatchHash, some h⟩)] := by
  have hcp : ∀ M' : Manifest, lookupM M' F = some e →
      check_patch env sys M' F fs
        = .ok (some (basename pd.filename,
            ⟨.patch, F, pd.patchHash, pd.compPatchHash, some h⟩)) := by
    intro M' hl'
    simp only [check_patch, hb, hl', hc, hh, if_pos hsys, hp, if_pos hne]
  have hl1 : lookupM [(F, e)] F = some e := by simp [lookupM]
  refine ⟨hcp M hl, ?_⟩
  simp only [plan, List.map_cons, List.map_nil, planAux, hcp [(F, e)] hl1,
    updateAssoc]
  simp

/-- Witness for the amended C4: the file `g` hashes to 5, the entry's
target hash is 9 and its patches have a key 5, so a `PatchDownload` with
patch hash 4, compressed patch hash 11 and post-patch hash 9 is
planned. -/
theorem check_patch_patch_download_witness :
    check_patch envW "linux" [("g", ePatchFromG)] "g" sW.ttr
      = .ok (some ("p.bz2", ⟨.patch, "g", 4, 11, some 9⟩))
    ∧ plan envW "linux" [("g", ePatchFromG)] sW.ttr
      = .ok [("p.bz2", ⟨.patch, "g", 4, 11, some 9⟩)] :=
  check_patch_patch_download envW "linux" [("g", ePatchFromG)] sW.ttr "g"
    ePatchFromG [2, 3] 9 ⟨"pp/p.bz2", 4, 11⟩ rfl rfl (by decide) rfl rfl
    (by decide) rfl

/-- C5: for every manifest entry applicable to the current platform whose
file does not exist on disk, the planner emits a `FullDownload` built
from the entry's `dl`, `hash` and `compHash` fields; if the entry lacks
the `dl` field the entry is silently skipped (the `KeyError` is caught)
and planning of the remaining entries proceeds unchanged. -/
theorem check_patch_full_download (env : Env) (sys : String) (M : Manifest)
    (fs : String → Option Bytes) (F : String) (e : ManifestEntry)
    (hl : lookupM M F = some e) (hb : basename F = F) (hsys : sys ∈ e.only)
    (hmiss : fs F = none) :
    (∀ dl h ch, e.dl = some dl → e.hash = some h → e.compHash = some ch →
      check_patch env sys M F fs = .ok (some (dl, ⟨.full, F, h, ch, none⟩))
      ∧ plan env sys [(F, e)] fs = .ok [(dl, ⟨.full, F, h, ch, none⟩)])
    ∧ (e.dl = none →
      check_patch env sys M F fs = .ok none
      ∧ ∀ (keys : List String) (acc : List (String × DInfo)),
        planAux env sys M fs (F :: keys) acc = planAux env sys M fs keys acc) := by
  have hl1 : lookupM [(F, e)] F = some e := by simp [lookupM]
  constructor
  · intro dl h ch hdl hh hch
    have hcp : ∀ M' : Manifest, lookupM M' F = some e →
        check_patch env sys M' F fs = .ok (some (dl, ⟨.full, F, h, ch, none⟩)) := by
      intro M' hl'
      simp only [check_patch, hb, hl', hmiss, if_pos hsys, hdl, hh, hch]
    refine ⟨hcp M hl, ?_⟩
    simp only [plan, List.map_cons, List.map_nil, planAux, hcp [(F, e)] hl1,
      updateAssoc]
    simp
  · intro hdl
    have hcp : check_patch env sys M F fs = .ok none := by
      simp only [check_patch, hb, hl, hmiss, if_pos hsys, hdl]
    refine ⟨hcp, ?_⟩
    intro keys acc
    rw [planAux, hcp]

/-- Witness for C5: the file `d.bin` is absent from the install dir, so
the single-entry plan is the full download of `d.bz2` (and, the `dl`
field being present, the skip clause holds vacuously). -/
theorem check_patch_full_download_witness :
    check_patch envW "linux" [("d.bin", eUpToDate)] "d.bin" sW.ttr
      = .ok (some ("d.bz2", ⟨.full, "d.bin", 5, 7, none⟩))
    ∧ plan envW "linux" [("d.bin", eUpToDate)] sW.ttr
      = .ok [("d.bz2", ⟨.full, "d.bin", 5, 7, none⟩)] :=
  (check_patch_full_download envW "linux" [("d.bin", eUpToDate)] sW.ttr
    "d.bin" eUpToDate rfl rfl (by decide) rfl).1 "d.bz2" 5 7 rfl rfl rfl

/-! ## Pipeline lemmas (C1, C2, C7, C9) -/

theorem decompress_bz2_state (env : Env) (s : DLState) (a b : String)
    (c : Nat) :
    (decompress_bz2 env s a b c).2.fetchCount = s.fetchCount
    ∧ (decompress_bz2 env s a b c).2.mirrors = s.mirrors
    ∧ (decompress_bz2 env s a b c).2.ttr = s.ttr
    ∧ (decompress_bz2 env s a b c).2.evictLog = s.evictLog := by
  cases h1 : s.temp a with
  | none => simp [decompress_bz2, h1]
  | some comp =>
    cases h2 : env.bz2 comp with
    | none => simp [decompress_bz2, h1, h2]
    | some d =>
      by_cases h3 : env.sha1 d ≠ c
      · simp [decompress_bz2, h1, h2, h3]
      · simp [decompress_bz2, h1, h2, h3]

theorem process_decompressed_file_state (env : Env) (s : DLState)
    (info : DInfo) :
    (process_decompressed_file env s info).2.fetchCount = s.fetchCount
    ∧ (process_decompressed_file env s info).2.mirrors = s.mirrors
    ∧ (process_decompressed_file env s info).2.evictLog = s.evictLog := by
  cases ht : info.dltype with
  | full =>
    cases h1 : s.temp info.local_filename with
    | none => simp [process_decompressed_file, ht, h1]
    | some d => simp [process_decompressed_file, ht, h1]
  | patch =>
    cases h1 : s.ttr info.local_filename with
    | none => simp [process_decompressed_file, ht, h1]
    | some base =>
      cases h2 : s.temp info.local_filename with
      | none => simp [process_decompressed_file, ht, h1, h2]
      | some pb =>
        cases h3 : info.post_patch_hash with
        | none => simp [process_decompressed_file, ht, h1, h2, h3]
        | some post =>
          by_cases h4 : env.sha1 (env.bsdiff base pb) ≠ post
          · simp [process_decompressed_file, ht, h1, h2, h3, h4]
          · simp [process_decompressed_file, ht, h1, h2, h3, h4]

theorem evictState_state (s : DLState) (m : String) :
    (evictState s m).fetchCount = s.fetchCount
    ∧ (evictState s m).ttr = s.ttr
    ∧ (evictState s m).temp = s.temp
    ∧ (evictState s m).mirrors = evict s.mirrors m := by
  simp [evictState]

/-- One call of `__download_file` issues exactly one HTTP payload request
when the mirror pool is non-empty. -/
theorem download_file_fetchCount (env : Env) (info : DInfo) (remote : String)
    (s : DLState) (m : String) (rest : List String)
    (hm : s.mirrors = m :: rest) :
    (download_file env info remote s).2.fetchCount = s.fetchCount + 1 := by
  cases hf : env.fetch s.fetchCount m remote with
  | none => simp [download_file, hm, hf, evictState]
  | some payload =>
    cases hcl : env.contentLength s.fetchCount with
    | none => simp [download_file, hm, hf, hcl]
    | some L =>
      by_cases hch : env.sha1 payload = info.comp_hash
      case neg => simp [download_file, hm, hf, hcl, hch]
      case pos =>
        rcases hd : decompress_bz2 env
            ⟨m :: rest, s.ttr, upd s.temp remote (some payload),
              s.fetchCount + 1, s.evictLog⟩
            remote info.local_filename info.hash with ⟨rd, s2⟩
        have hds := decompress_bz2_state env
          ⟨m :: rest, s.ttr, upd s.temp remote (some payload),
            s.fetchCount + 1, s.evictLog⟩
          remote info.local_filename info.hash
        rw [hd] at hds
        simp only at hds
        cases rd with
        | ok bd =>
          cases bd with
          | true =>
            rcases hp : process_decompressed_file env s2 info with ⟨rp, s3⟩
            have hps := process_decompressed_file_state env s2 info
            rw [hp] at hps
            simp only at hps
            cases rp with
            | ok bp =>
              simp [download_file, hm, hf, hcl, hch, hd, hp, hps.1, hds.1]
            | raise e =>
              cases e <;>
                simp [download_file, hm, hf, hcl, hch, hd, hp, evictState,
                  hps.1, hds.1]
          | false => simp [download_file, hm, hf, hcl, hch, hd, hds.1]
        | raise e =>
          cases e <;>
            simp [download_file, hm, hf, hcl, hch, hd, evictState, hds.1]

/-- Pipeline attempts never decrease the request counter, and add at most
one request each. -/
theorem download_file_fetchCount_le (env : Env) (info : DInfo)
    (remote : String) (s : DLState) :
    s.fetchCount ≤ (download_file env info remote s).2.fetchCount
    ∧ (download_file env info remote s).2.fetchCount ≤ s.fetchCount + 1 := by
  cases hm : s.mirrors with
  | nil => simp [download_file, hm]
  | cons m rest =>
    rw [download_file_fetchCount env info remote s m rest hm]
    omega

theorem retry_download_fetchCount_le (env : Env) (info : DInfo)
    (remote : String) :
    ∀ (fuel : Nat) (s : DLState),
      (retry_download env info remote fuel s).2.fetchCount
        ≤ s.fetchCount + fuel := by
  intro fuel
  induction fuel with
  | zero => intro s; simp [retry_download]
  | succ n ih =>
    intro s
    have h1 := download_file_fetchCount_le env info remote s
    rw [retry_download]
    rcases hdf : download_file env info remote s with ⟨r, s'⟩
    rw [hdf] at h1
    simp only at h1
    cases r with
    | ok b =>
      cases b with
      | true => simp; omega
      | false =>
        by_cases hn : n = 0
        · subst hn; simp; omega
        · simp only [hn, if_false]
          have := ih s'
          omega
    | raise e =>
      by_cases hn : n = 0
      · subst hn; simp; omega
      · simp only [hn, if_false]
        have := ih s'
        omega

/-- If the first pipeline attempt returns `True`, the retry wrapper stops
with `True` in that attempt's state. -/
theorem retry_download_first_ok (env : Env) (info : DInfo) (remote : String)
    (rem : Nat) (s : DLState)
    (h : (download_file env info remote s).1 = .ok true) :
    retry_download env info remote (rem + 1) s
      = (.ret true, (download_file env info remote s).2) := by
  rw [retry_download]
  rcases hdf : download_file env info remote s with ⟨r, s'⟩
  rw [hdf] at h
  simp only at h
  subst h
  rfl

/-- A successful full-download pipeline attempt: fetch delivers `P` with
a `Content-Length` header, the compressed hash matches, decompression
yields `D`, the decompressed hash matches; the attempt returns `True`
and installs `D`. -/
theorem download_file_full_ok (env : Env) (lf : String) (h c : Nat)
    (remote : String) (s : DLState) (m : String) (rest : List String)
    (P D : Bytes)
    (hm : s.mirrors = m :: rest)
    (hf : env.fetch s.fetchCount m remote = some P)
    (hcl : (env.contentLength s.fetchCount).isSome = true)
    (hch : env.sha1 P = c)
    (hbz : env.bz2 P = some D)
    (hdh : env.sha1 D = h) :
    download_file env (⟨.full, lf, h, c, none⟩ : DInfo) remote s
      = (.ok true,
        { s with
          fetchCount := s.fetchCount + 1
          ttr := upd s.ttr lf (some D)
          temp := upd (upd (upd s.temp remote (some P)) lf (some D)) lf none }) := by
  obtain ⟨L, hL⟩ := Option.isSome_iff_exists.mp hcl
  simp only [download_file, hm, hf, hL, decompress_bz2,
    process_decompressed_file, upd, hbz]
  simp [hch, hbz, hdh, upd]

/-- C1 (amended): a `FullDownload` action whose fetched compressed
payload `P` satisfies `sha1 P = comp_hash` and
`sha1 (bz2_decompress P) = target_hash`, and whose HTTP response carries
a `Content-Length` header, succeeds on the first pipeline attempt and
leaves `install_dir/F` holding contents whose hash equals the target
hash. -/
theorem full_download_ok (env : Env) (lf : String) (h c : Nat)
    (remote : String) (s : DLState) (m : String) (rest : List String)
    (P D : Bytes)
    (hm : s.mirrors = m :: rest)
    (hf : env.fetch s.fetchCount m remote = some P)
    (hcl : (env.contentLength s.fetchCount).isSome = true)
    (hch : env.sha1 P = c)
    (hbz : env.bz2 P = some D)
    (hdh : env.sha1 D = h) :
    (attempt_download_file env ⟨.full, lf, h, c, none⟩ remote s).1 = .ret true
    ∧ ∃ b, (attempt_download_file env ⟨.full, lf, h, c, none⟩ remote s).2.ttr lf
        = some b ∧ env.sha1 b = h := by
  have hdf := download_file_full_ok env lf h c remote s m rest P D
    hm hf hcl hch hbz hdh
  have hfirst := retry_download_first_ok env ⟨.full, lf, h, c, none⟩ remote
    (retry_count - 1) s (by rw [hdf])
  have hrc : retry_count - 1 + 1 = retry_count := by decide
  rw [hrc] at hfirst
  unfold attempt_download_file
  rw [hfirst, hdf]
  refine ⟨rfl, D, ?_, hdh⟩
  simp [upd]

/-- Witness for the amended C1: with `envW` the payload `[1, 2]` has
compressed hash 3, decompresses to `[1, 2, 1, 2]` with hash 6, and the
pipeline installs it. -/
theorem full_download_ok_witness :
    (attempt_download_file envW ⟨.full, "f", 6, 3, none⟩ "r" sW).1 = .ret true
    ∧ ∃ b, (attempt_download_file envW ⟨.full, "f", 6, 3, none⟩ "r" sW).2.ttr "f"
        = some b ∧ envW.sha1 b = 6 :=
  full_download_ok envW "f" 6 3 "r" sW "m1" ["m2"] [1, 2] [1, 2, 1, 2]
    rfl rfl rfl rfl rfl rfl

/-- C1 counterexample: the hash-side conditions of the claim hold (the
payload `[1, 2]` hashes to the expected compressed hash 3, its
decompression hashes to the target hash 6), yet because the response
carries no `Content-Length` header the pipeline raises `TypeError`
(`int(None)`) on every attempt and installs nothing. -/
theorem full_download_no_content_length :
    envNoCL.sha1 [1, 2] = 3
    ∧ envNoCL.bz2 [1, 2] = some [1, 2, 1, 2]
    ∧ envNoCL.sha1 [1, 2, 1, 2] = 6
    ∧ envNoCL.fetch sW.fetchCount "m1" "r" = some [1, 2]
    ∧ (attempt_download_file envNoCL ⟨.full, "f", 6, 3, none⟩ "r" sW).1
        = .raised .typeError
    ∧ (attempt_download_file envNoCL ⟨.full, "f", 6, 3, none⟩ "r" sW).2.ttr "f"
        = none :=
  ⟨rfl, rfl, rfl, rfl, rfl, rfl⟩

/-- A pipeline attempt whose staged payload hashes differently from the
expected compressed hash returns `False`, touching only the staging
directory and the request counter (no eviction, no install-dir write). -/
theorem download_file_comp_mismatch (env : Env) (info : DInfo)
    (remote : String) (s : DLState) (m : String) (rest : List String)
    (P : Bytes)
    (hm : s.mirrors = m :: rest)
    (hf : env.fetch s.fetchCount m remote = some P)
    (hcl : (env.contentLength s.fetchCount).isSome = true)
    (hne : env.sha1 P ≠ info.comp_hash) :
    download_file env info remote s
      = (.ok false, ⟨s.mirrors, s.ttr, upd s.temp remote (some P),
          s.fetchCount + 1, s.evictLog⟩) := by
  obtain ⟨L, hL⟩ := Option.isSome_iff_exists.mp hcl
  simp [download_file, hm, hf, hL, hne]

theorem retry_download_all_mismatch (env : Env) (info : DInfo)
    (remote : String) :
    ∀ (fuel : Nat) (s : DLState) (m : String) (rest : List String),
      s.mirrors = m :: rest → 1 ≤ fuel →
      (∀ k, k < fuel → ∃ P, env.fetch (s.fetchCount + k) m remote = some P
        ∧ (env.contentLength (s.fetchCount + k)).isSome = true
        ∧ env.sha1 P ≠ info.comp_hash) →
      (retry_download env info remote fuel s).1 = .ret false
      ∧ (retry_download env info remote fuel s).2.ttr = s.ttr
      ∧ (retry_download env info remote fuel s).2.mirrors = s.mirrors := by
  intro fuel
  induction fuel with
  | zero => intro s m rest hm h1; omega
  | succ n ih =>
    intro s m rest hm _ hall
    obtain ⟨P, hf, hcl, hne⟩ := hall 0 (by omega)
    rw [Nat.add_zero] at hf hcl
    have hdf := download_file_comp_mismatch env info remote s m rest P
      hm hf hcl hne
    by_cases hn : n = 0
    · subst hn
      refine ⟨?_, ?_, ?_⟩ <;> rw [retry_download, hdf] <;> simp
    · have hall' : ∀ k, k < n →
          ∃ P', env.fetch (s.fetchCount + 1 + k) m remote = some P'
            ∧ (env.contentLength (s.fetchCount + 1 + k)).isSome = true
            ∧ env.sha1 P' ≠ info.comp_hash := by
        intro k hk
        have := hall (k + 1) (by omega)
        rwa [show s.fetchCount + (k + 1) = s.fetchCount + 1 + k by omega]
          at this
      have IH := ih ⟨s.mirrors, s.ttr, upd s.temp remote (some P),
          s.fetchCount + 1, s.evictLog⟩ m rest hm (by omega) hall'
      refine ⟨?_, ?_, ?_⟩ <;> rw [retry_download, hdf] <;> simp [hn]
      · exact IH.1
      · exact IH.2.1
      · exact IH.2.2

/-- C2: a `FullDownload` (or patch) action whose staged payload hashes to
a value different from the expected `comp_hash` on each of the three
attempts fails (the retry wrapper returns `False`), leaves the install
directory untouched and the mirror pool intact, and makes the whole run
fail (`__download_worker` returns `False`). -/
theorem download_hash_mismatch_fails (env : Env) (info : DInfo)
    (remote : String) (s : DLState) (m : String) (rest : List String)
    (hm : s.mirrors = m :: rest)
    (hall : ∀ k, k < retry_count →
      ∃ P, env.fetch (s.fetchCount + k) m remote = some P
        ∧ (env.contentLength (s.fetchCount + k)).isSome = true
        ∧ env.sha1 P ≠ info.comp_hash) :
    (attempt_download_file env info remote s).1 = .ret false
    ∧ (attempt_download_file env info remote s).2.ttr = s.ttr
    ∧ (attempt_download_file env info remote s).2.mirrors = s.mirrors
    ∧ ∃ s', download_worker env [(remote, info)] s = .ok (false, s')
        ∧ s'.ttr = s.ttr := by
  have hA := retry_download_all_mismatch env info remote retry_count s m rest
    hm (by decide) hall
  refine ⟨hA.1, hA.2.1, hA.2.2, ?_⟩
  rcases hatt : attempt_download_file env info remote s with ⟨r, s1⟩
  have hrd : retry_download env info remote retry_count s = (r, s1) := hatt
  rw [hrd] at hA
  simp only at hA
  obtain ⟨hr, httr, _⟩ := hA
  subst hr
  refine ⟨⟨s1.mirrors, s1.ttr, fun _ => none, s1.fetchCount, s1.evictLog⟩,
    ?_, httr⟩
  simp [download_worker, runActions, hatt, firstRaised, ARes.isTrue]

/-- Witness for C2: with `envW` every fetch stages `[1, 2]` (hash 3), but
the expected compressed hash is 99; the action fails, the run fails, the
install dir and the pool are unchanged. -/
theorem download_hash_mismatch_fails_witness :
    (attempt_download_file envW ⟨.full, "f", 6, 99, none⟩ "r" sW).1 = .ret false
    ∧ (attempt_download_file envW ⟨.full, "f", 6, 99, none⟩ "r" sW).2.ttr = sW.ttr
    ∧ (attempt_download_file envW ⟨.full, "f", 6, 99, none⟩ "r" sW).2.mirrors
        = sW.mirrors
    ∧ ∃ s', download_worker envW [("r", ⟨.full, "f", 6, 99, none⟩)] sW
        = .ok (false, s') ∧ s'.ttr = sW.ttr :=
  download_hash_mismatch_fails envW ⟨.full, "f", 6, 99, none⟩ "r" sW
    "m1" ["m2"] rfl (fun _ _ => ⟨[1, 2], rfl, rfl, by decide⟩)

/-- C7 counterexample: with two mirrors and a mirror that rejects every
request, running one action evicts the first mirror right after its first
(and only) fetch of the first pipeline attempt — the eviction log records
an eviction triggered by request 1 — and the three pipeline attempts
issue three fetches in total, not three fetch retries per attempt. -/
theorem fetch_failure_evicts_after_one_fetch :
    (attempt_download_file envDown ⟨.full, "f", 6, 3, none⟩ "r" sW).1
      = .ret false
    ∧ (attempt_download_file envDown ⟨.full, "f", 6, 3, none⟩ "r" sW).2.evictLog
      = [1]
    ∧ (attempt_download_file envDown ⟨.full, "f", 6, 3, none⟩ "r" sW).2.fetchCount
      = 3
    ∧ (attempt_download_file envDown ⟨.full, "f", 6, 3, none⟩ "r" sW).2.mirrors
      = ["m2"] :=
  ⟨rfl, rfl, rfl, rfl⟩

/-- C7 (amended): each call of `__download_file` issues exactly one fetch;
a fetch error within an attempt immediately evicts the current mirror
(when more than one remains) and fails that attempt; the whole pipeline —
not the fetch step alone — is retried up to `retry_count = 3` times, so
an action issues at most 3 payload requests. -/
theorem pipeline_retry_spec (env : Env) (info : DInfo) (remote : String)
    (s : DLState) (m : String) (rest : List String)
    (hm : s.mirrors = m :: rest) :
    (download_file env info remote s).2.fetchCount = s.fetchCount + 1
    ∧ (env.fetch s.fetchCount m remote = none →
        (download_file env info remote s).1 = .ok false
        ∧ (download_file env info remote s).2.mirrors = evict s.mirrors m)
    ∧ (attempt_download_file env info remote s).2.fetchCount
        ≤ s.fetchCount + retry_count := by
  refine ⟨download_file_fetchCount env info remote s m rest hm, ?_,
    retry_download_fetchCount_le env info remote retry_count s⟩
  intro hf
  constructor
  · simp [download_file, hm, hf]
  · rw [hm]
    simp [download_file, hm, hf, evictState]

/-- Witness for the amended C7: the failing-mirror fixture issues one
fetch per attempt, evicts `m1` on the first failure, and stays within
three requests. -/
theorem pipeline_retry_spec_witness :
    (download_file envDown ⟨.full, "f", 6, 3, none⟩ "r" sW).2.fetchCount
      = sW.fetchCount + 1
    ∧ (envDown.fetch sW.fetchCount "m1" "r" = none →
        (download_file envDown ⟨.full, "f", 6, 3, none⟩ "r" sW).1 = .ok false
        ∧ (download_file envDown ⟨.full, "f", 6, 3, none⟩ "r" sW).2.mirrors
          = evict sW.mirrors "m1")
    ∧ (attempt_download_file envDown ⟨.full, "f", 6, 3, none⟩ "r" sW).2.fetchCount
        ≤ sW.fetchCount + retry_count :=
  pipeline_retry_spec envDown ⟨.full, "f", 6, 3, none⟩ "r" sW "m1" ["m2"] rfl

/-- C9: the two environments below differ only in the presence of the
`Content-Length` header.  With the header the transfer completes and
installs the file; without it the action raises `TypeError`
(`int(response.headers.get('Content-Length'))` with the header absent is
`int(None)`) on every attempt, the exception escapes the
`except (FileNotFoundError, RequestException)` clause, and nothing is
installed — the absence of the header does make the action fail, contrary
to the claim. -/
theorem content_length_absent_fails :
    (attempt_download_file envHdr ⟨.full, "h.bin", 8, 4, none⟩ "q" sW).1
      = .ret true
    ∧ (attempt_download_file envHdr ⟨.full, "h.bin", 8, 4, none⟩ "q" sW).2.ttr
        "h.bin" = some [4, 4]
    ∧ (attempt_download_file envNoHdr ⟨.full, "h.bin", 8, 4, none⟩ "q" sW).1
      = .raised .typeError
    ∧ (attempt_download_file envNoHdr ⟨.full, "h.bin", 8, 4, none⟩ "q" sW).2.ttr
        "h.bin" = none :=
  ⟨rfl, rfl, rfl, rfl⟩

end Launcher
